import Mathlib

/-!
# treefmt: the `Formatter` unit (`format/formatter.go`)

A shallow embedding of `Formatter`, `NewFormatter`, `Wants`, `Apply` and
`Executable`, followed by the properties of the specification that concern them.

Conventions of the embedding.

* Go slices are Lean lists; `append(s, x)` is `s ++ [x]`, `append(s, t...)` is
  `s ++ t`, and a slice expression `s[lo:hi]` is `goSlice s lo hi`.
* The receiver `f *Formatter` is mutated by `Apply` (the field `batch`); `Apply`
  therefore returns the formatter state after the call, next to its Go result.
* The operating system is a pair of oracles: `look` stands for `exec.LookPath`
  and `run` for `cmd.CombinedOutput()` of the command built by
  `exec.CommandContext`; the context `ctx` only influences what `run` reports.
* `glob.Glob` of `github.com/gobwas/glob` is an interface with one method
  `Match(string) bool`; `glob.Compile` is an oracle `compile`.
* The logger `f.log` is a write-only sink: `Debugf` and `Infof` return nothing and
  no branch depends on them. The logger is kept as the text it is created with,
  and the events sent to it are not part of the model.
-/

set_option autoImplicit false

/-! ## Library types -/

/-- An error value returned by `exec.LookPath`; `isNotFound` is the outcome of
`errors.Is(err, exec.ErrNotFound)`. -/
structure LookPathError where
  isNotFound : Bool
  msg : String
  deriving DecidableEq, Repr

/-- An error value returned by `glob.Compile`. -/
structure GlobError where
  msg : String
  deriving DecidableEq, Repr

/-- An error value returned by `cmd.CombinedOutput()`: launch failure, non-zero
exit status or cancellation of the context. -/
structure ExecError where
  msg : String
  deriving DecidableEq, Repr

/-- The interface `glob.Glob`: a compiled pattern is what its `Match` method answers. -/
structure Glob where
  Match : String → Bool

/-- The slice expression `s[lo:hi]` on the elements of a slice. -/
def goSlice {α : Type} (s : List α) (lo hi : Nat) : List α :=
  (s.take hi).drop lo

/-- The slice expression `s[:]`, that is `s[0:len(s)]`. -/
def goSliceAll {α : Type} (s : List α) : List α :=
  goSlice s 0 s.length

/-- The field `Path` of the command built by `exec.Command(name, ...)` in an
environment whose `exec.LookPath` is `look`: the name is looked up when the
command is built, and is used as it stands when the lookup gives no path. (For a
name with a path separator `exec.LookPath` answers the name itself, which is what
`exec.Command` takes.) -/
def commandPath (look : String → Except LookPathError String) (name : String) : String :=
  match look name with
  | .ok p => p
  | .error _ => name

namespace config

/-- Modelled from the spec: the configuration record `config.Formatter`, declared in
the package `config`; the fields are those `format/formatter.go` reads (command
name, ordered option strings, include and exclude pattern strings, pipeline name). -/
structure Formatter where
  Command : String
  Options : List String
  Includes : List String
  Excludes : List String
  Pipeline : String

end config

namespace format

/-- The errors `NewFormatter` returns. -/
inductive Error where
  /-- The variable `ErrCommandNotFound`. -/
  | ErrCommandNotFound
  /-- An error of `exec.LookPath` other than not-found, returned as it is. -/
  | lookPath (e : LookPathError)
  /-- An error of `CompileGlobs(config.Includes)`, wrapped with the formatter name. -/
  | includes (e : GlobError) (name : String)
  /-- An error of `CompileGlobs(config.Excludes)`, wrapped with the formatter name. -/
  | excludes (e : GlobError) (name : String)
  deriving DecidableEq, Repr

/-- Modelled from the spec: `CompileGlobs` of the package `format` (its file is not
part of the sources at hand). It compiles the pattern strings in order and fails when
any of them is not a valid glob expression; the empty sequence compiles to the empty
set. -/
def CompileGlobs (compile : String → Except GlobError Glob) :
    List String → Except GlobError (List Glob)
  | [] => .ok []
  | pattern :: rest =>
    match compile pattern with
    | .error e => .error e
    | .ok g =>
      match CompileGlobs compile rest with
      | .error e => .error e
      | .ok gs => .ok (g :: gs)

/-- Modelled from the spec: `PathMatches` of the package `format` (its file is not
part of the sources at hand). It is true iff at least one compiled pattern of the set
matches the path; the empty set matches nothing. -/
def PathMatches (path : String) (globs : List Glob) : Bool :=
  globs.any (fun g => g.Match path)

/-- The struct `Formatter`. -/
structure Formatter where
  name : String
  config : config.Formatter
  log : String
  executable : String
  includes : List Glob
  excludes : List Glob
  batch : List String

/-- The method `Executable`. -/
def Formatter.Executable (f : Formatter) : String :=
  f.executable

/-- The method `Wants`. -/
def Formatter.Wants (f : Formatter) (path : String) : Bool :=
  let matched := !PathMatches path f.excludes && PathMatches path f.includes
  matched

/-- The command handed to the operating system: the arguments of
`exec.CommandContext(ctx, name, args...)`. -/
structure Launch where
  name : String
  args : List String
  deriving DecidableEq, Repr

/-- What a call of `Apply` does: the formatter after the call, the command it ran (if
any) and the error it returns (`none` is `nil`). -/
structure ApplyResult where
  formatter : Formatter
  launch : Option Launch
  err : Option ExecError

/-- The loop `for _, path := range paths` of `Apply`, on the value of `f.batch`. -/
def filterPaths (f : Formatter) (paths : List String) (batch : List String) : List String :=
  paths.foldl (fun b path => if f.Wants path then b ++ [path] else b) batch

/-- The tail of `Apply`: build the command, run it, return its error. -/
def execute (run : Launch → Option ExecError) (f : Formatter) (args : List String) :
    ApplyResult :=
  let cmd : Launch := ⟨f.config.Command, args⟩
  match run cmd with
  | some err => ⟨f, some cmd, some err⟩
  | none => ⟨f, some cmd, none⟩

/-- The method `Apply`. -/
def Formatter.Apply (run : Launch → Option ExecError) (f : Formatter)
    (paths : List String) (filter : Bool) : ApplyResult :=
  let args := f.config.Options
  if filter then
    -- reset the batch
    let f₁ : Formatter := { f with batch := goSliceAll f.batch }
    -- filter paths
    let f₂ : Formatter := { f₁ with batch := filterPaths f₁ paths f₁.batch }
    -- exit early if nothing to process
    if f₂.batch.length = 0 then
      ⟨f₂, none, none⟩
    else
      execute run f₂ (args ++ f₂.batch)
  else
    -- exit early if nothing to process
    if paths.length = 0 then
      ⟨f, none, none⟩
    else
      execute run f (args ++ paths)

/-- The function `NewFormatter`; `.error e` is the result `(nil, e)` and `.ok f` the
result `(&f, nil)`. -/
def NewFormatter (look : String → Except LookPathError String)
    (compile : String → Except GlobError Glob)
    (name : String) (config : config.Formatter) (globalExcludes : List Glob) :
    Except Error Formatter :=
  -- test if the formatter is available
  match look config.Command with
  | .error err =>
    if err.isNotFound then .error Error.ErrCommandNotFound else .error (Error.lookPath err)
  | .ok executable =>
    let log :=
      if config.Pipeline = "" then "format | " ++ name
      else "format | " ++ config.Pipeline ++ "[" ++ name ++ "]"
    match CompileGlobs compile config.Includes with
    | .error err => .error (Error.includes err name)
    | .ok includes =>
      match CompileGlobs compile config.Excludes with
      | .error err => .error (Error.excludes err name)
      | .ok excludes =>
        .ok ⟨name, config, log, executable, includes, excludes ++ globalExcludes, []⟩

end format

/-! ## A concrete environment

The scenario of the specification: the command `fmt-tool`, includes `*.go`, excludes
`vendor/**`, global excludes `generated/**`. The three patterns are compiled to what
they mean for `glob.Compile` without separators: a suffix test and two prefix tests. -/

namespace scenario

open format

/-- The function `strings.HasSuffix`. -/
def hasSuffix (s suffix : String) : Bool :=
  suffix.toList.isSuffixOf s.toList

/-- The function `strings.HasPrefix`. -/
def hasPrefix (s pre : String) : Bool :=
  pre.toList.isPrefixOf s.toList

/-- A search path on which `fmt-tool` is `/usr/bin/fmt-tool` and nothing else exists. -/
def look (file : String) : Except LookPathError String :=
  if file = "fmt-tool" then .ok "/usr/bin/fmt-tool"
  else .error ⟨true, "executable file not found in $PATH"⟩

/-- The same machine later on: a second `fmt-tool` now comes first on the search path. -/
def lookLater (file : String) : Except LookPathError String :=
  if file = "fmt-tool" then .ok "/opt/bin/fmt-tool"
  else .error ⟨true, "executable file not found in $PATH"⟩

/-- The three patterns of the scenario compiled; every other string is rejected. -/
def compile (pattern : String) : Except GlobError Glob :=
  if pattern = "*.go" then .ok ⟨fun path => hasSuffix path ".go"⟩
  else if pattern = "vendor/**" then .ok ⟨fun path => hasPrefix path "vendor/"⟩
  else if pattern = "generated/**" then .ok ⟨fun path => hasPrefix path "generated/"⟩
  else .error ⟨"unexpected pattern"⟩

/-- The configuration of the scenario, with one option. -/
def cfg : config.Formatter :=
  ⟨"fmt-tool", ["-w"], ["*.go"], ["vendor/**"], ""⟩

/-- A configuration whose command is not installed and whose patterns do not compile. -/
def cfgMissing : config.Formatter :=
  ⟨"no-such-tool", [], ["[", "*.go"], ["[a-"], "lint"⟩

/-- The global excludes of the scenario, compiled by the caller. -/
def globalExcludes : List Glob :=
  [⟨fun path => hasPrefix path "generated/"⟩]

/-- The candidate paths of the scenario. -/
def paths : List String :=
  ["a.go", "vendor/b.go", "generated/c.go", "d.py"]

/-- A tool that always succeeds. -/
def run (_ : Launch) : Option ExecError :=
  none

/-- A tool that always fails. -/
def runFailing (_ : Launch) : Option ExecError :=
  some ⟨"exit status 1"⟩

/-- The formatter `NewFormatter` returns in the scenario. -/
def formatter : Formatter :=
  ⟨"go", cfg, "format | go", "/usr/bin/fmt-tool",
    [⟨fun path => hasSuffix path ".go"⟩],
    [⟨fun path => hasPrefix path "vendor/"⟩] ++ globalExcludes, []⟩

end scenario

/-! ## Lemmas on the embedding -/

namespace format

theorem goSliceAll_eq {α : Type} (s : List α) : goSliceAll s = s := by
  simp [goSliceAll, goSlice]

theorem filterPaths_eq (f : Formatter) (paths batch : List String) :
    filterPaths f paths batch = batch ++ paths.filter f.Wants := by
  unfold filterPaths
  induction paths generalizing batch with
  | nil => simp
  | cons p ps ih =>
    rw [List.foldl_cons, ih]
    by_cases hp : f.Wants p = true
    · simp [hp, List.filter_cons]
    · simp [hp, List.filter_cons]

theorem PathMatches_iff (path : String) (globs : List Glob) :
    PathMatches path globs = true ↔ ∃ g ∈ globs, g.Match path = true := by
  simp [PathMatches, List.any_eq_true]

theorem PathMatches_append (path : String) (xs ys : List Glob) :
    PathMatches path (xs ++ ys) = (PathMatches path xs || PathMatches path ys) := by
  simp [PathMatches, List.any_append]

/-- What a successful `NewFormatter` has stored. -/
theorem NewFormatter_ok_inv {look : String → Except LookPathError String}
    {compile : String → Except GlobError Glob} {name : String} {cfg : config.Formatter}
    {globalExcludes : List Glob} {f : Formatter}
    (h : NewFormatter look compile name cfg globalExcludes = .ok f) :
    ∃ incs excs, look cfg.Command = .ok f.executable ∧
      CompileGlobs compile cfg.Includes = .ok incs ∧
      CompileGlobs compile cfg.Excludes = .ok excs ∧
      f.name = name ∧ f.config = cfg ∧ f.includes = incs ∧
      f.excludes = excs ++ globalExcludes ∧ f.batch = [] := by
  unfold NewFormatter at h
  cases hl : look cfg.Command with
  | error e =>
    rw [hl] at h
    by_cases hn : e.isNotFound = true <;> simp [hn] at h
  | ok exe =>
    rw [hl] at h
    cases hi : CompileGlobs compile cfg.Includes with
    | error e => rw [hi] at h; simp at h
    | ok incs =>
      cases he : CompileGlobs compile cfg.Excludes with
      | error e => rw [hi, he] at h; simp at h
      | ok excs =>
        rw [hi, he] at h
        simp only [Except.ok.injEq] at h
        subst h
        exact ⟨incs, excs, rfl, rfl, rfl, rfl, rfl, rfl, rfl, rfl⟩

/-- What a filtered `Apply` runs: the stored batch followed by the wanted paths. -/
theorem Apply_filter_launch (run : Launch → Option ExecError) (f : Formatter)
    (paths : List String) :
    (f.Apply run paths true).launch =
      if f.batch ++ paths.filter f.Wants = [] then none
      else some ⟨f.config.Command, f.config.Options ++ (f.batch ++ paths.filter f.Wants)⟩ := by
  have hw : ∀ b : List String, Formatter.Wants { f with batch := b } = f.Wants := by
    intro b; rfl
  simp only [Formatter.Apply, if_true, goSliceAll_eq, filterPaths_eq, hw,
    List.length_eq_zero]
  by_cases hb : f.batch ++ paths.filter f.Wants = []
  · simp [hb]
  · simp only [hb, if_false, execute]
    cases run ⟨f.config.Command, f.config.Options ++ (f.batch ++ paths.filter f.Wants)⟩ <;> rfl

/-- The batch a filtered `Apply` leaves behind. -/
theorem Apply_filter_batch (run : Launch → Option ExecError) (f : Formatter)
    (paths : List String) :
    (f.Apply run paths true).formatter.batch = f.batch ++ paths.filter f.Wants := by
  have hw : ∀ b : List String, Formatter.Wants { f with batch := b } = f.Wants := by
    intro b; rfl
  simp only [Formatter.Apply, if_true, goSliceAll_eq, filterPaths_eq, hw,
    List.length_eq_zero]
  by_cases hb : f.batch ++ paths.filter f.Wants = []
  · simp [hb]
  · simp only [hb, if_false, execute]
    cases run ⟨f.config.Command, f.config.Options ++ (f.batch ++ paths.filter f.Wants)⟩ <;> rfl

/-- What an unfiltered `Apply` runs on a non-empty input. -/
theorem Apply_nofilter_launch (run : Launch → Option ExecError) (f : Formatter)
    (paths : List String) (h : paths ≠ []) :
    (f.Apply run paths false).launch
      = some ⟨f.config.Command, f.config.Options ++ paths⟩ := by
  have hp : ¬ paths.length = 0 := by simpa [List.length_eq_zero] using h
  simp only [Formatter.Apply, hp, if_false, execute, Bool.false_eq_true]
  cases run ⟨f.config.Command, f.config.Options ++ paths⟩ <;> rfl

/-- The error `Apply` returns is the one of the command it ran. -/
theorem Apply_err (run : Launch → Option ExecError) (f : Formatter)
    (paths : List String) (filter : Bool) :
    (f.Apply run paths filter).err =
      match (f.Apply run paths filter).launch with
      | none => none
      | some cmd => run cmd := by
  unfold Formatter.Apply
  cases filter
  · by_cases hp : paths.length = 0
    · simp [hp]
    · simp only [hp, if_false, execute, Bool.false_eq_true]
      cases hr : run ⟨f.config.Command, f.config.Options ++ paths⟩ <;> simp [hr]
  · simp only [if_true]
    split
    · rfl
    · simp only [execute]
      split <;> simp [*]

end format

/-! ## The claims -/

namespace format

/-- C1: for a formatter returned by `NewFormatter(name, config, globalExcludes)` and
every path `p`, `Wants(p)` is true iff `p` matches at least one compiled pattern of
`config.Includes`, no compiled pattern of `config.Excludes` and no pattern of
`globalExcludes`. -/
theorem Wants_iff_includes_excludes (look : String → Except LookPathError String)
    (compile : String → Except GlobError Glob) (name : String) (cfg : config.Formatter)
    (globalExcludes : List Glob) (f : Formatter)
    (h : NewFormatter look compile name cfg globalExcludes = .ok f) :
    ∃ incs excs, CompileGlobs compile cfg.Includes = .ok incs ∧
      CompileGlobs compile cfg.Excludes = .ok excs ∧
      ∀ p : String, f.Wants p = true ↔
        ((∃ g ∈ incs, g.Match p = true) ∧ (¬ ∃ g ∈ excs, g.Match p = true) ∧
          ¬ ∃ g ∈ globalExcludes, g.Match p = true) := by
  obtain ⟨incs, excs, -, hi, he, -, -, hfi, hfe, -⟩ := NewFormatter_ok_inv h
  refine ⟨incs, excs, hi, he, fun p => ?_⟩
  simp only [Formatter.Wants, hfi, hfe, PathMatches_append, Bool.and_eq_true,
    Bool.not_eq_true', Bool.or_eq_false_iff, ← PathMatches_iff]
  constructor
  · rintro ⟨⟨h1, h2⟩, h3⟩
    exact ⟨h3, by simp [h1], by simp [h2]⟩
  · rintro ⟨h3, h1, h2⟩
    exact ⟨⟨by simpa using h1, by simpa using h2⟩, h3⟩

/-- The scenario satisfies the hypothesis of C1, and its conclusion holds there. -/
theorem Wants_iff_includes_excludes_witness :
    NewFormatter scenario.look scenario.compile "go" scenario.cfg scenario.globalExcludes
        = .ok scenario.formatter ∧
      ∃ incs excs, CompileGlobs scenario.compile scenario.cfg.Includes = .ok incs ∧
        CompileGlobs scenario.compile scenario.cfg.Excludes = .ok excs ∧
        ∀ p : String, scenario.formatter.Wants p = true ↔
          ((∃ g ∈ incs, g.Match p = true) ∧ (¬ ∃ g ∈ excs, g.Match p = true) ∧
            ¬ ∃ g ∈ scenario.globalExcludes, g.Match p = true) :=
  ⟨rfl, Wants_iff_includes_excludes scenario.look scenario.compile "go" scenario.cfg
    scenario.globalExcludes scenario.formatter rfl⟩

/-- C6: for a formatter returned by `NewFormatter(name, config, globalExcludes)`, the
exclude set is the compiled `config.Excludes` followed by `globalExcludes`, and
`Wants(p)` is false for every path `p` that some pattern of `globalExcludes` matches,
whatever the includes and the local excludes are. -/
theorem Wants_false_of_globalExcludes (look : String → Except LookPathError String)
    (compile : String → Except GlobError Glob) (name : String) (cfg : config.Formatter)
    (globalExcludes : List Glob) (f : Formatter)
    (h : NewFormatter look compile name cfg globalExcludes = .ok f) :
    (∃ excs, CompileGlobs compile cfg.Excludes = .ok excs ∧
      f.excludes = excs ++ globalExcludes) ∧
    ∀ p : String, (∃ g ∈ globalExcludes, g.Match p = true) → f.Wants p = false := by
  obtain ⟨incs, excs, -, -, he, -, -, -, hfe, -⟩ := NewFormatter_ok_inv h
  refine ⟨⟨excs, he, hfe⟩, fun p hp => ?_⟩
  have hg : PathMatches p globalExcludes = true := (PathMatches_iff p globalExcludes).2 hp
  simp [Formatter.Wants, hfe, PathMatches_append, hg]

/-- In the scenario `generated/c.go` is matched by the global excludes only, and the
conclusion of C6 holds there. -/
theorem Wants_false_of_globalExcludes_witness :
    NewFormatter scenario.look scenario.compile "go" scenario.cfg scenario.globalExcludes
        = .ok scenario.formatter ∧
      PathMatches "generated/c.go" scenario.globalExcludes = true ∧
      ((∃ excs, CompileGlobs scenario.compile scenario.cfg.Excludes = .ok excs ∧
        scenario.formatter.excludes = excs ++ scenario.globalExcludes) ∧
      ∀ p : String, (∃ g ∈ scenario.globalExcludes, g.Match p = true) →
        scenario.formatter.Wants p = false) :=
  ⟨rfl, by decide, Wants_false_of_globalExcludes scenario.look scenario.compile "go"
    scenario.cfg scenario.globalExcludes scenario.formatter rfl⟩

/-- C7: when the lookup of `config.Command` reports not-found, `NewFormatter` returns
`ErrCommandNotFound` and no formatter, whatever the patterns are. -/
theorem NewFormatter_command_not_found (look : String → Except LookPathError String)
    (compile : String → Except GlobError Glob) (name : String) (cfg : config.Formatter)
    (globalExcludes : List Glob) (e : LookPathError)
    (hl : look cfg.Command = .error e) (hn : e.isNotFound = true) :
    NewFormatter look compile name cfg globalExcludes = .error Error.ErrCommandNotFound := by
  simp [NewFormatter, hl, hn]

/-- A command that is not installed, with patterns that do not compile either. -/
theorem NewFormatter_command_not_found_witness :
    CompileGlobs scenario.compile scenario.cfgMissing.Includes
        = .error ⟨"unexpected pattern"⟩ ∧
      NewFormatter scenario.look scenario.compile "lint" scenario.cfgMissing
        scenario.globalExcludes = .error Error.ErrCommandNotFound :=
  ⟨rfl, NewFormatter_command_not_found scenario.look scenario.compile "lint"
    scenario.cfgMissing scenario.globalExcludes
    ⟨true, "executable file not found in $PATH"⟩ rfl rfl⟩

/-- C4: with `filter = false` and a non-empty path list, `Apply` runs the command with
the arguments `config.Options` followed by `paths`, for every formatter state. -/
theorem Apply_unfiltered_launch (run : Launch → Option ExecError) (f : Formatter)
    (paths : List String) (h : paths ≠ []) :
    (f.Apply run paths false).launch
      = some ⟨f.config.Command, f.config.Options ++ paths⟩ :=
  Apply_nofilter_launch run f paths h

/-- The scenario formatter wants one of the four paths and holds a batch from an
earlier filtered call; unfiltered, all four are passed in order. -/
theorem Apply_unfiltered_launch_witness :
    scenario.paths ≠ [] ∧
      scenario.paths.filter scenario.formatter.Wants = ["a.go"] ∧
      ((scenario.formatter.Apply scenario.run ["x.go"] true).formatter.Apply scenario.run
          scenario.paths false).launch
        = some ⟨"fmt-tool", ["-w", "a.go", "vendor/b.go", "generated/c.go", "d.py"]⟩ :=
  ⟨by decide, by decide,
    Apply_unfiltered_launch scenario.run
      (scenario.formatter.Apply scenario.run ["x.go"] true).formatter scenario.paths
      (by decide)⟩

/-- C10: `Apply` with an empty path list and `filter = false` returns `nil`, runs
nothing and leaves the stored batch as it was. -/
theorem Apply_unfiltered_empty (run : Launch → Option ExecError) (f : Formatter) :
    (f.Apply run [] false).err = none ∧ (f.Apply run [] false).launch = none ∧
      (f.Apply run [] false).formatter.batch = f.batch := by
  simp [Formatter.Apply]

/-- C8: `Apply` returns an error iff it ran the command and the run reported an
error, and then returns that error; it runs nothing exactly in the two no-op cases
(empty batch after filtering, empty input without filtering), which return `nil`. -/
theorem Apply_err_iff_process_error (run : Launch → Option ExecError) (f : Formatter)
    (paths : List String) (filter : Bool) :
    (∀ e : ExecError, (f.Apply run paths filter).err = some e ↔
      ∃ cmd, (f.Apply run paths filter).launch = some cmd ∧ run cmd = some e) ∧
    ((f.Apply run paths filter).launch = none ↔
      (filter = true ∧ (f.Apply run paths filter).formatter.batch = []) ∨
        (filter = false ∧ paths = [])) ∧
    ((f.Apply run paths filter).launch = none → (f.Apply run paths filter).err = none) := by
  refine ⟨fun e => ?_, ?_, fun hn => ?_⟩
  · rw [Apply_err]
    cases (f.Apply run paths filter).launch <;> simp
  · cases filter
    · by_cases hp : paths = []
      · subst hp; simp [Formatter.Apply]
      · rw [Apply_nofilter_launch run f paths hp]; simp [hp]
    · rw [Apply_filter_launch, Apply_filter_batch]
      by_cases hb : f.batch ++ paths.filter f.Wants = [] <;> simp [hb]
  · rw [Apply_err, hn]

end format

namespace format

/-- C9: on a formatter fresh from `NewFormatter`, `Apply` with `filter = true` runs
the command iff some path satisfies `Wants`, and then with `config.Options` followed
by the paths that satisfy `Wants`, in input order; in the scenario of the
specification (`a.go` included and not excluded, `vendor/b.go` excluded locally,
`generated/c.go` excluded globally, `d.py` not included) the paths passed are
exactly `a.go`. -/
theorem Apply_filter_fresh (look : String → Except LookPathError String)
    (compile : String → Except GlobError Glob) (name : String) (cfg : config.Formatter)
    (globalExcludes : List Glob) (f : Formatter) (run : Launch → Option ExecError)
    (paths : List String)
    (h : NewFormatter look compile name cfg globalExcludes = .ok f) :
    ((∃ cmd, (f.Apply run paths true).launch = some cmd) ↔
      ∃ p ∈ paths, f.Wants p = true) ∧
    (∀ cmd, (f.Apply run paths true).launch = some cmd →
      cmd = ⟨cfg.Command, cfg.Options ++ paths.filter f.Wants⟩) ∧
    (∀ incs excs, CompileGlobs compile cfg.Includes = .ok incs →
      CompileGlobs compile cfg.Excludes = .ok excs →
      PathMatches "a.go" incs = true → PathMatches "a.go" excs = false →
      PathMatches "a.go" globalExcludes = false →
      PathMatches "vendor/b.go" excs = true →
      PathMatches "generated/c.go" globalExcludes = true →
      PathMatches "d.py" incs = false →
      (f.Apply run ["a.go", "vendor/b.go", "generated/c.go", "d.py"] true).launch
        = some ⟨cfg.Command, cfg.Options ++ ["a.go"]⟩) := by
  obtain ⟨incs, excs, -, hi, he, -, hc, hfi, hfe, hb⟩ := NewFormatter_ok_inv h
  have hlaunch : ∀ ps : List String, (f.Apply run ps true).launch =
      if ps.filter f.Wants = [] then none
      else some ⟨cfg.Command, cfg.Options ++ ps.filter f.Wants⟩ := by
    intro ps
    rw [Apply_filter_launch, hb, hc]
    simp
  refine ⟨?_, ?_, ?_⟩
  · rw [hlaunch]
    by_cases hf : paths.filter f.Wants = []
    · rw [if_pos hf]
      constructor
      · rintro ⟨cmd, hcmd⟩
        cases hcmd
      · rintro ⟨p, hp, hw⟩
        have hmem : p ∈ paths.filter f.Wants := List.mem_filter.2 ⟨hp, hw⟩
        rw [hf] at hmem
        exact absurd hmem (List.not_mem_nil p)
    · simp only [hf, if_false, Option.some.injEq, exists_eq', true_iff]
      obtain ⟨p, hp⟩ := List.exists_mem_of_ne_nil _ hf
      exact ⟨p, (List.mem_filter.1 hp).1, (List.mem_filter.1 hp).2⟩
  · intro cmd hcmd
    rw [hlaunch] at hcmd
    by_cases hf : paths.filter f.Wants = []
    · simp [hf] at hcmd
    · simp only [hf, if_false, Option.some.injEq] at hcmd
      exact hcmd.symm
  · intro incs2 excs2 hi2 he2 ha1 ha2 ha3 hv hg hd
    rw [hi] at hi2
    rw [he] at he2
    simp only [Except.ok.injEq] at hi2 he2
    subst hi2 he2
    have wa : f.Wants "a.go" = true := by
      simp [Formatter.Wants, hfi, hfe, PathMatches_append, ha1, ha2, ha3]
    have wv : f.Wants "vendor/b.go" = false := by
      simp [Formatter.Wants, hfe, PathMatches_append, hv]
    have wg : f.Wants "generated/c.go" = false := by
      simp [Formatter.Wants, hfe, PathMatches_append, hg]
    have wd : f.Wants "d.py" = false := by
      simp [Formatter.Wants, hfi, hd]
    rw [hlaunch]
    simp [List.filter_cons, wa, wv, wg, wd]

/-- The scenario of the specification, evaluated: the command is run with its option
and `a.go` alone. -/
theorem Apply_filter_fresh_witness :
    NewFormatter scenario.look scenario.compile "go" scenario.cfg scenario.globalExcludes
        = .ok scenario.formatter ∧
      (scenario.formatter.Apply scenario.run scenario.paths true).launch
        = some ⟨"fmt-tool", ["-w", "a.go"]⟩ :=
  ⟨rfl, (Apply_filter_fresh scenario.look scenario.compile "go" scenario.cfg
    scenario.globalExcludes scenario.formatter scenario.run scenario.paths rfl).2.2
    [⟨fun path => scenario.hasSuffix path ".go"⟩]
    [⟨fun path => scenario.hasPrefix path "vendor/"⟩]
    rfl rfl (by decide) (by decide) (by decide) (by decide) (by decide) (by decide)⟩

/-- C5, as stated, fails: the formatter of the scenario is returned by `NewFormatter`
with the executable `/usr/bin/fmt-tool`, yet `Apply` hands the name `fmt-tool` to
`exec.CommandContext`, which resolves it when the command is built; once another
`fmt-tool` comes first on the search path the program run is `/opt/bin/fmt-tool`. -/
theorem Apply_runs_Command_not_Executable :
    NewFormatter scenario.look scenario.compile "go" scenario.cfg scenario.globalExcludes
        = .ok scenario.formatter ∧
      scenario.formatter.Executable = "/usr/bin/fmt-tool" ∧
      (scenario.formatter.Apply scenario.run ["a.go"] false).launch
        = some ⟨"fmt-tool", ["-w", "a.go"]⟩ ∧
      ((scenario.formatter.Apply scenario.run ["a.go"] false).launch.map
          (fun cmd => commandPath scenario.lookLater cmd.name))
        = some "/opt/bin/fmt-tool" ∧
      ((scenario.formatter.Apply scenario.run ["a.go"] false).launch.map
          (fun cmd => commandPath scenario.lookLater cmd.name))
        ≠ some scenario.formatter.Executable :=
  ⟨rfl, by decide, by decide, by decide, by decide⟩

/-- C5, amended: for a formatter returned by `NewFormatter`, in any later state,
whenever `Apply` runs the command the name it hands to `exec.CommandContext` is
`config.Command`; `Executable()` is the result of the lookup of that name at
construction, so the program run is `Executable()` whenever the lookup made when the
command is built gives what the lookup at construction gave. -/
theorem Apply_launches_config_Command (lookNew lookApply : String → Except LookPathError String)
    (compile : String → Except GlobError Glob) (name : String) (cfg : config.Formatter)
    (globalExcludes : List Glob) (f : Formatter) (batch : List String)
    (run : Launch → Option ExecError) (paths : List String) (filter : Bool) (cmd : Launch)
    (h : NewFormatter lookNew compile name cfg globalExcludes = .ok f)
    (hl : (Formatter.Apply run { f with batch := batch } paths filter).launch = some cmd) :
    cmd.name = cfg.Command ∧ lookNew cfg.Command = .ok f.Executable ∧
      (lookApply cfg.Command = lookNew cfg.Command →
        commandPath lookApply cmd.name = f.Executable) := by
  obtain ⟨incs, excs, hlook, -, -, -, hc, -, -, -⟩ := NewFormatter_ok_inv h
  have hname : cmd.name = cfg.Command := by
    cases filter
    · by_cases hp : paths = []
      · subst hp; simp [Formatter.Apply] at hl
      · rw [Apply_nofilter_launch run _ paths hp] at hl
        simp only [Option.some.injEq] at hl
        rw [← hl, ← hc]
    · rw [Apply_filter_launch] at hl
      split at hl
      · simp at hl
      · simp only [Option.some.injEq] at hl
        rw [← hl, ← hc]
  refine ⟨hname, hlook, fun hsame => ?_⟩
  rw [hname, commandPath, hsame, hlook]
  rfl

/-- In the scenario, after an earlier filtered call, and with the search path
unchanged, the program run is the executable found at construction. -/
theorem Apply_launches_config_Command_witness :
    NewFormatter scenario.look scenario.compile "go" scenario.cfg scenario.globalExcludes
        = .ok scenario.formatter ∧
      (Formatter.Apply scenario.run { scenario.formatter with batch := ["x.go"] }
          ["a.go"] true).launch = some ⟨"fmt-tool", ["-w", "x.go", "a.go"]⟩ ∧
      ((⟨"fmt-tool", ["-w", "x.go", "a.go"]⟩ : Launch).name = scenario.cfg.Command ∧
        scenario.look scenario.cfg.Command = .ok scenario.formatter.Executable ∧
        (scenario.look scenario.cfg.Command = scenario.look scenario.cfg.Command →
          commandPath scenario.look (⟨"fmt-tool", ["-w", "x.go", "a.go"]⟩ : Launch).name
            = scenario.formatter.Executable)) :=
  ⟨rfl, by decide,
    Apply_launches_config_Command scenario.look scenario.look scenario.compile "go"
      scenario.cfg scenario.globalExcludes scenario.formatter ["x.go"] scenario.run
      ["a.go"] true ⟨"fmt-tool", ["-w", "x.go", "a.go"]⟩ rfl (by decide)⟩

/-- C2, on the code: after `Apply(ctx, [a.go], true)` on the fresh formatter of the
scenario, `Apply(ctx, [b.go], true)` passes `a.go` and `b.go`, although `b.go` is the
only path of the second call; `f.batch[:]` keeps the batch of the first call. -/
theorem Apply_filter_second_call_keeps_batch :
    NewFormatter scenario.look scenario.compile "go" scenario.cfg scenario.globalExcludes
        = .ok scenario.formatter ∧
      (scenario.formatter.Apply scenario.run ["a.go"] true).launch
        = some ⟨"fmt-tool", ["-w", "a.go"]⟩ ∧
      (scenario.formatter.Apply scenario.run ["a.go"] true).formatter.batch = ["a.go"] ∧
      ["b.go"].filter (scenario.formatter.Apply scenario.run ["a.go"] true).formatter.Wants
        = ["b.go"] ∧
      ((scenario.formatter.Apply scenario.run ["a.go"] true).formatter.Apply scenario.run
          ["b.go"] true).launch = some ⟨"fmt-tool", ["-w", "a.go", "b.go"]⟩ :=
  ⟨rfl, by decide, by decide, by decide, by decide⟩

/-- C3, on the code: after `Apply(ctx, [a.go], true)` on the fresh formatter of the
scenario, `Apply(ctx, [d.py], true)`, in which no path satisfies `Wants`, runs the
command on `a.go` again and returns the error of that run. -/
theorem Apply_filter_nothing_wanted_runs_old_batch :
    NewFormatter scenario.look scenario.compile "go" scenario.cfg scenario.globalExcludes
        = .ok scenario.formatter ∧
      ["d.py"].filter (scenario.formatter.Apply scenario.run ["a.go"] true).formatter.Wants
        = [] ∧
      ((scenario.formatter.Apply scenario.run ["a.go"] true).formatter.Apply
          scenario.runFailing ["d.py"] true).launch = some ⟨"fmt-tool", ["-w", "a.go"]⟩ ∧
      ((scenario.formatter.Apply scenario.run ["a.go"] true).formatter.Apply
          scenario.runFailing ["d.py"] true).err = some ⟨"exit status 1"⟩ :=
  ⟨rfl, by decide, by decide, by decide⟩

end format
